import Mathlib

/-!
Verification of the novel-review dashboard core (src/main.py):
status classifier (row-wise and batch), aggregate-cache build,
optimistic overlay reconciliation, write-path toggle semantics,
CSV export filter and the numeric score filter of the query facade.

Reviewer cohorts: `ADMIN_TEAM_USERS` (PrimaryReviewBody) is read from
configuration; `GENERAL_TEAM_USERS` (GeneralEditors) is every user of
`USER_LIST` not in the admin list (main.py line 25).
-/

/-- Static reviewer configuration: `USER_LIST` and `ADMIN_TEAM_USERS`. -/
structure Config where
  userList : List String
  adminUsers : List String
deriving DecidableEq, Repr

/-- `GENERAL_TEAM_USERS = [u for u in USER_LIST if u not in ADMIN_TEAM_USERS]`. -/
def Config.generalUsers (c : Config) : List String :=
  c.userList.filter (fun u => !(c.adminUsers.contains u))

/-- One row of the `user_ratings` table, keyed by `(ncode, user_name)`.
`rating = none` models a SQL NULL; `some ""` an empty string. -/
structure RatingRecord where
  ncode : String
  user_name : String
  rating : Option String
  comment : Option String
  role : String
  updated_at : Nat
deriving DecidableEq, Repr

/-- A pending overlay write, `st.session_state["local_rating_patches"][ncode]`. -/
structure Patch where
  rating : Option String
  comment : Option String
  role : String
  updated_at : Nat
deriving DecidableEq, Repr

/-- The six boolean classification columns produced by `determine_status`. -/
structure Flags where
  is_ng : Bool
  is_admin_evaluated : Bool
  is_admin_rejected : Bool
  is_general_evaluated : Bool
  is_general_rejected : Bool
  is_unclassified : Bool
deriving DecidableEq, Repr

def unclassifiedFlags : Flags :=
  { is_ng := false, is_admin_evaluated := false, is_admin_rejected := false,
    is_general_evaluated := false, is_general_rejected := false, is_unclassified := true }

def ngFlags : Flags :=
  { is_ng := true, is_admin_evaluated := false, is_admin_rejected := false,
    is_general_evaluated := false, is_general_rejected := false, is_unclassified := false }

/-- `df["rating"].notna() & (df["rating"] != "")`. -/
def validRating (r : Option String) : Bool :=
  !(r.getD "" == "")

/-- The positive glyphs `["〇", "○", "△"]` of main.py. -/
def positives : List String := ["〇", "○", "△"]

def isPositive (r : Option String) : Bool :=
  match r with
  | some s => positives.contains s
  | none => false

def isNG (r : Option String) : Bool :=
  r == some "NG"

def isAdmin (c : Config) (u : String) : Bool :=
  c.adminUsers.contains u

def isGeneral (c : Config) (u : String) : Bool :=
  c.generalUsers.contains u

/-- `determine_status(sub_df)` (main.py 352-393): row-wise classifier for one
submission's rating records. -/
def determine_status (c : Config) (sub : List RatingRecord) : Flags :=
  let valid := sub.filter (fun r => validRating r.rating)
  if valid.isEmpty then unclassifiedFlags
  else if valid.any (fun r => isNG r.rating) then ngFlags
  else
    let admins := valid.filter (fun r => isAdmin c r.user_name)
    let generals := valid.filter (fun r => isGeneral c r.user_name)
    let ae := !admins.isEmpty && admins.any (fun r => isPositive r.rating)
    let ar := !admins.isEmpty && !admins.any (fun r => isPositive r.rating)
    let ge := !generals.isEmpty && generals.any (fun r => isPositive r.rating)
    let gr := !generals.isEmpty && !generals.any (fun r => isPositive r.rating)
    { is_ng := false, is_admin_evaluated := ae, is_admin_rejected := ar,
      is_general_evaluated := ge, is_general_rejected := gr,
      is_unclassified := !(ae || ar || ge || gr) }

/-- One row of the DataFrame returned by `calculate_novel_status` (five flag
columns; the batch classifier produces no `is_unclassified` column). -/
structure StatusRow where
  is_ng : Bool
  is_admin_evaluated : Bool
  is_admin_rejected : Bool
  is_general_evaluated : Bool
  is_general_rejected : Bool
deriving DecidableEq, Repr

/-- `calculate_novel_status(df_ratings)` (main.py 396-435) restricted to one
`ncode`: the groupby row for that submission, `none` when the submission has
no valid-rating record (so no row in the groupby result). -/
def calculate_novel_status (c : Config) (table : List RatingRecord) (n : String) : Option StatusRow :=
  let valid := table.filter (fun r => validRating r.rating)
  let group := valid.filter (fun r => r.ncode == n)
  if group.isEmpty then none
  else
    let ngF := group.any (fun r => isNG r.rating)
    let adminPos := group.any (fun r => isAdmin c r.user_name && isPositive r.rating)
    let adminNeg := group.any (fun r => isAdmin c r.user_name && !isPositive r.rating && !isNG r.rating)
    let genPos := group.any (fun r => isGeneral c r.user_name && isPositive r.rating)
    let genNeg := group.any (fun r => isGeneral c r.user_name && !isPositive r.rating && !isNG r.rating)
    if ngF then
      some { is_ng := true, is_admin_evaluated := false, is_admin_rejected := false,
             is_general_evaluated := false, is_general_rejected := false }
    else
      some { is_ng := false, is_admin_evaluated := adminPos,
             is_admin_rejected := adminNeg && !adminPos,
             is_general_evaluated := genPos,
             is_general_rejected := genNeg && !genPos }

/-- Batch flags with the unclassified status derived the only way the batch
result allows: a submission is unclassified when it has no batch row, or its
batch row sets none of the five flags. -/
def statusRowToFlags (o : Option StatusRow) : Flags :=
  match o with
  | none => unclassifiedFlags
  | some b =>
    { is_ng := b.is_ng, is_admin_evaluated := b.is_admin_evaluated,
      is_admin_rejected := b.is_admin_rejected,
      is_general_evaluated := b.is_general_evaluated,
      is_general_rejected := b.is_general_rejected,
      is_unclassified := !(b.is_ng || b.is_admin_evaluated || b.is_admin_rejected ||
                           b.is_general_evaluated || b.is_general_rejected) }

/-- The six flag columns a row of `get_processed_novel_data` carries for
submission `n`: the merged `calculate_novel_status` row (fillna(False)) with
`is_unclassified` set exactly for ncodes outside `evaluated_ncodes`
(main.py 449-469 and 496-499). -/
def enrichFlags (c : Config) (all : List RatingRecord) (n : String) : Flags :=
  match calculate_novel_status c all n with
  | none => unclassifiedFlags
  | some b =>
    { is_ng := b.is_ng, is_admin_evaluated := b.is_admin_evaluated,
      is_admin_rejected := b.is_admin_rejected,
      is_general_evaluated := b.is_general_evaluated,
      is_general_rejected := b.is_general_rejected, is_unclassified := false }

/-- `get_disp_status` (main.py 501-507): display-priority rendering. -/
def get_disp_status (f : Flags) : String :=
  if f.is_ng then "NG"
  else if f.is_admin_evaluated then "Admin〇△"
  else if f.is_admin_rejected then "Admin×"
  else if f.is_general_evaluated then "Gen〇△"
  else if f.is_general_rejected then "Gen×"
  else "-"

/-- One catalog row (the columns of the master table this core reads). -/
structure MasterRow where
  ncode : String
  global_point : Int
deriving DecidableEq, Repr

/-- One row of the enriched table built by `get_processed_novel_data`. -/
structure EnrichedRow where
  ncode : String
  global_point : Int
  my_rating : Option String
  my_comment : Option String
  flags : Flags
  other_ratings_text : Option String
  classification : String
deriving DecidableEq, Repr

/-- The `other_ratings_text` column (main.py 480-494): every other reviewer's
non-empty rating on `n`, rendered "user:rating" and space-joined in table
order; NaN (none) when no such record exists. -/
def other_ratings_text (all : List RatingRecord) (user n : String) : Option String :=
  let xs := all.filter (fun r => !(r.user_name == user) && validRating r.rating && r.ncode == n)
  if xs.isEmpty then none
  else some (String.intercalate " " (xs.map (fun r => r.user_name ++ ":" ++ r.rating.getD "")))

/-- `get_processed_novel_data(user_name)` (main.py 439-511): the aggregate
cache build. `all` is `load_all_ratings_table()`, `myRatings` is
`load_user_ratings(user_name)` (the caller's records). The left join with the
caller's ratings keeps one output row per match (pandas merge semantics). -/
def get_processed_novel_data (c : Config) (master : List MasterRow)
    (all myRatings : List RatingRecord) (user : String) : List EnrichedRow :=
  master.flatMap (fun m =>
    let f := enrichFlags c all m.ncode
    let others := other_ratings_text all user m.ncode
    let cls := get_disp_status f
    let mine := myRatings.filter (fun r => r.ncode == m.ncode)
    if mine.isEmpty then
      [{ ncode := m.ncode, global_point := m.global_point, my_rating := none,
         my_comment := none, flags := f, other_ratings_text := others,
         classification := cls }]
    else
      mine.map (fun r =>
        { ncode := m.ncode, global_point := m.global_point, my_rating := r.rating,
          my_comment := r.comment, flags := f, other_ratings_text := others,
          classification := cls }))

def sameKey (a b : RatingRecord) : Bool :=
  a.ncode == b.ncode && a.user_name == b.user_name

/-- `supabase.upsert(..., on_conflict="ncode,user_name")`, and equally the
replace-or-append step of `apply_local_patches` (main.py 542-546): replace
the record with the same key if one exists, append otherwise. -/
def upsertRecord (table : List RatingRecord) (rec : RatingRecord) : List RatingRecord :=
  if table.any (fun r => sameKey r rec) then
    table.map (fun r => if sameKey r rec then rec else r)
  else table ++ [rec]

/-- The RatingRecord built from a pending patch (main.py 533-540). -/
def patchRecord (n user : String) (p : Patch) : RatingRecord :=
  { ncode := n, user_name := user, rating := p.rating, comment := p.comment,
    role := p.role, updated_at := p.updated_at }

/-- Lookup in the session's pending-write dict, keyed by ncode. -/
def lookupPatch (patches : List (String × Patch)) (n : String) : Option Patch :=
  (patches.find? (fun q => q.1 == n)).map (fun q => q.2)

/-- The per-row action of one iteration of the `apply_local_patches` loop on a
row whose ncode carries a pending write: overwrite `my_rating`/`my_comment`,
rebuild the submission's record set from the base ratings table with the
caller's record replaced (or a synthetic one appended), re-run
`determine_status` and re-render `classification` (main.py 523-564). -/
def patchRow (c : Config) (all : List RatingRecord) (user : String)
    (patches : List (String × Patch)) (row : EnrichedRow) : EnrichedRow :=
  match lookupPatch patches row.ncode with
  | none => row
  | some p =>
    let novelRatings := upsertRecord (all.filter (fun r => r.ncode == row.ncode))
                          (patchRecord row.ncode user p)
    let f := determine_status c novelRatings
    { row with my_rating := p.rating, my_comment := p.comment, flags := f,
               classification := get_disp_status f }

/-- `apply_local_patches(df, user_name)` (main.py 514-566). Each loop
iteration touches exactly the rows of its own ncode and depends only on the
base ratings table and the patch, so the dict loop acts row-wise. -/
def apply_local_patches (c : Config) (all : List RatingRecord) (user : String)
    (patches : List (String × Patch)) (df : List EnrichedRow) : List EnrichedRow :=
  if patches.isEmpty then df
  else df.map (patchRow c all user patches)

/-- The CSV-export base filter (main.py 783-787): reconcile, then keep the
rows whose `is_unclassified` is false. -/
def df_export (c : Config) (master : List MasterRow) (all myRatings : List RatingRecord)
    (user : String) (patches : List (String × Patch)) : List EnrichedRow :=
  (apply_local_patches c all user patches
    (get_processed_novel_data c master all myRatings user)).filter
    (fun row => !row.flags.is_unclassified)

/-- The numeric score filter of `get_filtered_sorted_data` (main.py
1079-1082): each bound applies only when strictly positive. -/
def score_filter_step (minG maxG : Nat) (df : List EnrichedRow) : List EnrichedRow :=
  let df1 := if 0 < minG then df.filter (fun r => decide ((minG : Int) ≤ r.global_point)) else df
  if 0 < maxG then df1.filter (fun r => decide (r.global_point < (maxG : Int))) else df1

/-- Session-visible state of the write path: the durable `user_ratings` table,
the memoized result of `load_user_ratings(user)` (a snapshot: `st.cache_data`
with a 300s TTL, never invalidated by the write path), and the pending-write
dict `local_rating_patches`. -/
structure Session where
  db : List RatingRecord
  cache_user_ratings : List RatingRecord
  patches : List (String × Patch)
deriving DecidableEq, Repr

/-- Overwrite-or-insert in the pending dict (dict assignment by key). -/
def setPatch (patches : List (String × Patch)) (n : String) (p : Patch) :
    List (String × Patch) :=
  if patches.any (fun q => q.1 == n) then
    patches.map (fun q => if q.1 == n then (n, p) else q)
  else patches ++ [(n, p)]

/-- `save_rating` (main.py 292-314): upsert the record, overwrite the pending
patch. The memoized `load_user_ratings` snapshot is not invalidated. -/
def save_rating (s : Session) (n user : String) (rating comment : Option String)
    (role : String) (t : Nat) : Session :=
  { db := upsertRecord s.db
      { ncode := n, user_name := user, rating := rating, comment := comment,
        role := role, updated_at := t },
    cache_user_ratings := s.cache_user_ratings,
    patches := setPatch s.patches n
      { rating := rating, comment := comment, role := role, updated_at := t } }

/-- `on_rating_button_click` (main.py 316-321): toggle semantics. -/
def on_rating_button_click (s : Session) (n user : String) (target : String)
    (current_rating : Option String) (comment : Option String) (role : String)
    (t : Nat) : Session :=
  save_rating s n user (if current_rating == some target then none else some target)
    comment role t

/-- `save_comment_only` (main.py 323-350): re-reads the caller's rating from
the memoized `load_user_ratings` snapshot (first row for the ncode, else
None), then upserts and patches with that rating and the new comment. -/
def save_comment_only (s : Session) (n user : String) (comment : Option String)
    (role : String) (t : Nat) : Session :=
  let current := s.cache_user_ratings.filter (fun r => r.ncode == n)
  let current_rating := match current.head? with
    | some r => r.rating
    | none => none
  { db := upsertRecord s.db
      { ncode := n, user_name := user, rating := current_rating, comment := comment,
        role := role, updated_at := t },
    cache_user_ratings := s.cache_user_ratings,
    patches := setPatch s.patches n
      { rating := current_rating, comment := comment, role := role, updated_at := t } }

/-- The rating held in the session's pending dict for `n`, when present. -/
def patchRatingOf (s : Session) (n : String) : Option (Option String) :=
  (lookupPatch s.patches n).map (fun p => p.rating)

/-- The rating of the stored record for key `(n, u)`, when present. -/
def dbRatingOf (db : List RatingRecord) (n u : String) : Option (Option String) :=
  (db.find? (fun r => r.ncode == n && r.user_name == u)).map (fun r => r.rating)

/-!  ## Helper lemmas  -/

lemma isNG_valid {r : Option String} (h : isNG r = true) : validRating r = true := by
  have hr : r = some "NG" := eq_of_beq (by simpa [isNG] using h)
  subst hr
  decide

lemma det_cohort_evaluated (G : List RatingRecord) (p q : RatingRecord → Bool) :
    (!(G.filter p).isEmpty && (G.filter p).any q) = G.any (fun r => p r && q r) := by
  rw [List.any_filter]
  cases h : G.any (fun r => p r && q r) with
  | false => simp
  | true =>
    rw [List.any_eq_true] at h
    obtain ⟨x, hx, hpq⟩ := h
    have hxf : x ∈ G.filter p := List.mem_filter.mpr ⟨hx, (Bool.and_eq_true_iff.mp hpq).1⟩
    have hne : G.filter p ≠ [] := by
      intro hnil
      rw [hnil] at hxf
      exact absurd hxf (List.not_mem_nil x)
    simp [List.isEmpty_eq_false.mpr hne]

lemma det_cohort_rejected (G : List RatingRecord) (p q ng : RatingRecord → Bool)
    (hNG : G.any ng = false) :
    (!(G.filter p).isEmpty && !(G.filter p).any q) =
      (G.any (fun r => p r && !q r && !ng r) && !(G.any (fun r => p r && q r))) := by
  rw [List.any_filter]
  cases hA : G.any (fun r => p r && q r) with
  | true => simp [hA]
  | false =>
    simp only [hA, Bool.not_false, Bool.and_true]
    cases hB : G.any (fun r => p r && !q r && !ng r) with
    | true =>
      rw [List.any_eq_true] at hB
      obtain ⟨x, hx, hpx⟩ := hB
      have hp : p x = true := (Bool.and_eq_true_iff.mp (Bool.and_eq_true_iff.mp hpx).1).1
      have hxf : x ∈ G.filter p := List.mem_filter.mpr ⟨hx, hp⟩
      have hne : G.filter p ≠ [] := by
        intro hnil
        rw [hnil] at hxf
        exact absurd hxf (List.not_mem_nil x)
      simp [List.isEmpty_eq_false.mpr hne]
    | false =>
      rw [List.any_eq_false] at hA hB hNG
      cases hE : (G.filter p).isEmpty with
      | true => simp
      | false =>
        exfalso
        rw [List.isEmpty_eq_false] at hE
        obtain ⟨x, hxf⟩ := List.exists_mem_of_ne_nil _ hE
        obtain ⟨hx, hp⟩ := List.mem_filter.mp hxf
        have hq : q x = false := by
          cases hqx : q x with
          | false => rfl
          | true => exact absurd (by simp [hp, hqx] : (p x && q x) = true) (hA x hx)
        have hn : ng x = false := by
          cases hnx : ng x with
          | false => rfl
          | true => exact absurd hnx (by simpa using hNG x hx)
        exact hB x hx (by simp [hp, hq, hn])

lemma group_comm (table : List RatingRecord) (n : String) :
    (table.filter (fun r => validRating r.rating)).filter (fun r => r.ncode == n)
      = table.filter (fun r => validRating r.rating && r.ncode == n) := by
  rw [List.filter_filter]
  exact List.filter_congr (fun a _ => Bool.and_comm _ _)

/-- Core refinement: the row-wise classifier on one submission\'s records
agrees with the batch classifier\'s row for that submission, with the
unclassified status derived from the batch flags. -/
lemma det_eq_batch (c : Config) (table : List RatingRecord) (n : String) :
    determine_status c (table.filter (fun r => r.ncode == n)) =
      statusRowToFlags (calculate_novel_status c table n) := by
  simp only [determine_status, calculate_novel_status]
  rw [List.filter_filter, group_comm]
  set G := table.filter (fun r => validRating r.rating && r.ncode == n) with hGdef
  cases hE : G.isEmpty with
  | true => simp [hE, statusRowToFlags]
  | false =>
    cases hNG : G.any (fun r => isNG r.rating) with
    | true => simp [hE, hNG, statusRowToFlags, ngFlags]
    | false =>
      have hae := det_cohort_evaluated G (fun r => isAdmin c r.user_name)
        (fun r => isPositive r.rating)
      have har := det_cohort_rejected G (fun r => isAdmin c r.user_name)
        (fun r => isPositive r.rating) (fun r => isNG r.rating) hNG
      have hge := det_cohort_evaluated G (fun r => isGeneral c r.user_name)
        (fun r => isPositive r.rating)
      have hgr := det_cohort_rejected G (fun r => isGeneral c r.user_name)
        (fun r => isPositive r.rating) (fun r => isNG r.rating) hNG
      simp only [hE, hNG, Bool.false_eq_true, if_false, statusRowToFlags, Bool.false_or]
      simp only [hae, har, hge, hgr]

lemma det_unclassified_eq (c : Config) (sub : List RatingRecord) :
    (determine_status c sub).is_unclassified =
      !((determine_status c sub).is_ng || (determine_status c sub).is_admin_evaluated ||
        (determine_status c sub).is_admin_rejected ||
        (determine_status c sub).is_general_evaluated ||
        (determine_status c sub).is_general_rejected) := by
  simp only [determine_status]
  cases hE : (sub.filter (fun r => validRating r.rating)).isEmpty with
  | true => simp [hE, unclassifiedFlags]
  | false =>
    cases hNG : (sub.filter (fun r => validRating r.rating)).any (fun r => isNG r.rating) with
    | true => simp [hE, hNG, ngFlags]
    | false => simp [hE, hNG]

lemma det_unclassified_flags {c : Config} {sub : List RatingRecord}
    (h : (determine_status c sub).is_unclassified = true) :
    determine_status c sub = unclassifiedFlags := by
  have h5 := det_unclassified_eq c sub
  rw [h] at h5
  have hor := h5.symm
  rw [Bool.not_eq_true'] at hor
  rcases hf : determine_status c sub with ⟨a, b, d, e, g, u⟩
  rw [hf] at h hor
  simp only at h hor
  simp only [Bool.or_eq_false_iff] at hor
  obtain ⟨⟨⟨⟨ha, hb⟩, hd⟩, he2⟩, hg⟩ := hor
  subst ha hb hd he2 hg h
  rfl

lemma enrich_unclassified_flags {c : Config} {all : List RatingRecord} {n : String}
    (h : (enrichFlags c all n).is_unclassified = true) :
    enrichFlags c all n = unclassifiedFlags := by
  unfold enrichFlags at h ⊢
  cases hcs : calculate_novel_status c all n with
  | none => rfl
  | some b => rw [hcs] at h; simp at h

lemma disp_congr_five {f g : Flags} (h1 : f.is_ng = g.is_ng)
    (h2 : f.is_admin_evaluated = g.is_admin_evaluated)
    (h3 : f.is_admin_rejected = g.is_admin_rejected)
    (h4 : f.is_general_evaluated = g.is_general_evaluated)
    (h5 : f.is_general_rejected = g.is_general_rejected) :
    get_disp_status f = get_disp_status g := by
  unfold get_disp_status
  rw [h1, h2, h3, h4, h5]

lemma enrich_five_eq (c : Config) (table : List RatingRecord) (n : String) :
    (enrichFlags c table n).is_ng = (statusRowToFlags (calculate_novel_status c table n)).is_ng
    ∧ (enrichFlags c table n).is_admin_evaluated =
        (statusRowToFlags (calculate_novel_status c table n)).is_admin_evaluated
    ∧ (enrichFlags c table n).is_admin_rejected =
        (statusRowToFlags (calculate_novel_status c table n)).is_admin_rejected
    ∧ (enrichFlags c table n).is_general_evaluated =
        (statusRowToFlags (calculate_novel_status c table n)).is_general_evaluated
    ∧ (enrichFlags c table n).is_general_rejected =
        (statusRowToFlags (calculate_novel_status c table n)).is_general_rejected := by
  unfold enrichFlags statusRowToFlags
  cases calculate_novel_status c table n with
  | none => exact ⟨rfl, rfl, rfl, rfl, rfl⟩
  | some b => exact ⟨rfl, rfl, rfl, rfl, rfl⟩

lemma sameKey_refl (a : RatingRecord) : sameKey a a = true := by
  simp [sameKey]

lemma filter_upsert (all : List RatingRecord) (rec : RatingRecord) :
    (upsertRecord all rec).filter (fun r => r.ncode == rec.ncode) =
      upsertRecord (all.filter (fun r => r.ncode == rec.ncode)) rec := by
  have hpoint : ∀ r : RatingRecord,
      ((r.ncode == rec.ncode) && sameKey r rec) = sameKey r rec := by
    intro r
    cases hs : sameKey r rec with
    | false => simp
    | true =>
      have hs2 := hs
      simp only [sameKey] at hs2
      simp [(Bool.and_eq_true_iff.mp hs2).1]
  unfold upsertRecord
  rw [List.any_filter]
  rw [show (all.any fun a => (a.ncode == rec.ncode) && sameKey a rec)
        = all.any (fun r => sameKey r rec) from congrArg _ (funext hpoint)]
  cases h : all.any (fun r => sameKey r rec) with
  | false =>
    simp only [Bool.false_eq_true, if_false, List.filter_append]
    congr 1
    simp [List.filter]
  | true =>
    simp only [if_true]
    rw [List.filter_map]
    congr 1
    apply List.filter_congr
    intro a _
    simp only [Function.comp_apply]
    cases hs : sameKey a rec with
    | false => simp [hs]
    | true =>
      have hs2 := hs
      simp only [sameKey] at hs2
      simp [hs, (Bool.and_eq_true_iff.mp hs2).1]

lemma filter_upsert_patch (all : List RatingRecord) (n user : String) (p : Patch) :
    (upsertRecord all (patchRecord n user p)).filter (fun r => r.ncode == n) =
      upsertRecord (all.filter (fun r => r.ncode == n)) (patchRecord n user p) := by
  have h := filter_upsert all (patchRecord n user p)
  simpa [patchRecord] using h

lemma find_map_replace (rec : RatingRecord) :
    ∀ db : List RatingRecord, db.any (fun r => sameKey r rec) = true →
      (db.map (fun r => if sameKey r rec then rec else r)).find? (fun r => sameKey r rec)
        = some rec := by
  intro db
  induction db with
  | nil => intro h; simp at h
  | cons r t ih =>
    intro h
    cases hs : sameKey r rec with
    | true =>
      simp only [List.map_cons, hs, if_true]
      exact List.find?_cons_of_pos _ (sameKey_refl rec)
    | false =>
      simp only [List.map_cons, hs, if_false]
      rw [List.find?_cons_of_neg _ (by simp [hs])]
      apply ih
      simpa [hs] using h

lemma find_upsert (db : List RatingRecord) (rec : RatingRecord) :
    (upsertRecord db rec).find? (fun r => sameKey r rec) = some rec := by
  unfold upsertRecord
  cases h : db.any (fun r => sameKey r rec) with
  | true => simpa using find_map_replace rec db h
  | false =>
    simp only [Bool.false_eq_true, if_false, List.find?_append]
    have h1 : db.find? (fun r => sameKey r rec) = none :=
      List.find?_eq_none.mpr (by
        intro x hx
        simpa using (List.any_eq_false.mp h) x hx)
    rw [h1]
    simp [sameKey_refl]

lemma dbRatingOf_upsert (db : List RatingRecord) (rec : RatingRecord) :
    dbRatingOf (upsertRecord db rec) rec.ncode rec.user_name = some rec.rating := by
  unfold dbRatingOf
  have h : (upsertRecord db rec).find?
      (fun r => r.ncode == rec.ncode && r.user_name == rec.user_name) = some rec := by
    have h0 := find_upsert db rec
    simpa [sameKey] using h0
  rw [h]
  rfl

lemma mem_get_processed {c : Config} {master : List MasterRow} {all myR : List RatingRecord}
    {user : String} {row : EnrichedRow}
    (h : row ∈ get_processed_novel_data c master all myR user) :
    row.flags = enrichFlags c all row.ncode ∧
      row.classification = get_disp_status (enrichFlags c all row.ncode) := by
  simp only [get_processed_novel_data] at h
  rw [List.mem_flatMap] at h
  obtain ⟨m, _, hrow⟩ := h
  split at hrow
  · rw [List.mem_singleton] at hrow
    subst hrow
    exact ⟨rfl, rfl⟩
  · rw [List.mem_map] at hrow
    obtain ⟨r, _, hrow⟩ := hrow
    subst hrow
    exact ⟨rfl, rfl⟩

lemma patchRow_eq_self {c : Config} {all : List RatingRecord} {user : String}
    {patches : List (String × Patch)} {row : EnrichedRow}
    (h : lookupPatch patches row.ncode = none) :
    patchRow c all user patches row = row := by
  unfold patchRow
  rw [h]

lemma patchRow_ncode (c : Config) (all : List RatingRecord) (user : String)
    (patches : List (String × Patch)) (row : EnrichedRow) :
    (patchRow c all user patches row).ncode = row.ncode := by
  unfold patchRow
  cases lookupPatch patches row.ncode <;> rfl

lemma patchRow_of_lookup (c : Config) (all : List RatingRecord) (user : String)
    {patches : List (String × Patch)} {row : EnrichedRow} {p : Patch}
    (h : lookupPatch patches row.ncode = some p) :
    (patchRow c all user patches row).flags =
        determine_status c (upsertRecord (all.filter (fun r => r.ncode == row.ncode))
          (patchRecord row.ncode user p))
    ∧ (patchRow c all user patches row).classification =
        get_disp_status (determine_status c
          (upsertRecord (all.filter (fun r => r.ncode == row.ncode))
            (patchRecord row.ncode user p)))
    ∧ (patchRow c all user patches row).my_rating = p.rating
    ∧ (patchRow c all user patches row).my_comment = p.comment := by
  unfold patchRow
  rw [h]
  exact ⟨rfl, rfl, rfl, rfl⟩

lemma mem_apply_patches {c : Config} {all : List RatingRecord} {user : String}
    {patches : List (String × Patch)} {df : List EnrichedRow} {row : EnrichedRow}
    (h : row ∈ apply_local_patches c all user patches df) :
    ∃ row0, row0 ∈ df ∧ row = patchRow c all user patches row0 := by
  unfold apply_local_patches at h
  split at h
  · rename_i hp
    rw [List.isEmpty_eq_true] at hp
    subst hp
    refine ⟨row, h, (patchRow_eq_self ?_).symm⟩
    rfl
  · rw [List.mem_map] at h
    obtain ⟨row0, h0, he⟩ := h
    exact ⟨row0, h0, he.symm⟩

lemma valid_absorb_ng (sub : List RatingRecord) :
    (sub.filter (fun r => validRating r.rating)).any (fun r => isNG r.rating)
      = sub.any (fun r => isNG r.rating) := by
  rw [List.any_filter]
  apply congrArg
  funext r
  cases hn : isNG r.rating with
  | false => simp [hn]
  | true => simp [hn, isNG_valid hn]

lemma det_is_ng_eq (c : Config) (sub : List RatingRecord) :
    (determine_status c sub).is_ng = sub.any (fun r => isNG r.rating) := by
  simp only [determine_status]
  conv_rhs => rw [← valid_absorb_ng]
  cases hE : (sub.filter (fun r => validRating r.rating)).isEmpty with
  | true =>
    rw [List.isEmpty_eq_true] at hE
    rw [hE]
    simp [unclassifiedFlags]
  | false =>
    cases hNG : (sub.filter (fun r => validRating r.rating)).any (fun r => isNG r.rating) with
    | true => simp [ngFlags]
    | false => simp

lemma det_ng_exclusive (c : Config) (sub : List RatingRecord) :
    ((determine_status c sub).is_ng &&
      ((determine_status c sub).is_admin_evaluated ||
       (determine_status c sub).is_admin_rejected ||
       (determine_status c sub).is_general_evaluated ||
       (determine_status c sub).is_general_rejected ||
       (determine_status c sub).is_unclassified)) = false := by
  simp only [determine_status]
  cases hE : (sub.filter (fun r => validRating r.rating)).isEmpty with
  | true => simp [hE, unclassifiedFlags]
  | false =>
    cases hNG : (sub.filter (fun r => validRating r.rating)).any (fun r => isNG r.rating) with
    | true => simp [hE, hNG, ngFlags]
    | false => simp [hE, hNG]

/-- The six display strings, in priority order. -/
def statusTags : List String := ["NG", "Admin〇△", "Admin×", "Gen〇△", "Gen×", "-"]

lemma count_disp (f : Flags) : statusTags.count (get_disp_status f) = 1 := by
  unfold get_disp_status statusTags
  repeat' split
  all_goals decide

/-- C2: the row-wise classifier `determine_status`, run on one submission's
records, agrees with the batch classifier `calculate_novel_status` run on the
full table and restricted to that submission, on all five flag columns and on
the derived unclassified status — including submissions whose valid ratings
come only from reviewers in neither cohort, and double-positive cases. -/
theorem c2_rowwise_matches_batch (c : Config) (table : List RatingRecord) (n : String) :
    determine_status c (table.filter (fun r => r.ncode == n)) =
      statusRowToFlags (calculate_novel_status c table n) :=
  det_eq_batch c table n

/-- C3: classification of one submission's records yields exactly one display
tag (the rendered tag occurs exactly once in the six-tag list); the `is_ng`
flag holds iff some record has rating "NG"; NG pre-empts every other flag;
and at least one of the six flags always holds. -/
theorem c3_exactly_one_tag_and_blocking (c : Config) (sub : List RatingRecord) :
    statusTags.count (get_disp_status (determine_status c sub)) = 1
    ∧ (determine_status c sub).is_ng = sub.any (fun r => r.rating == some "NG")
    ∧ ((determine_status c sub).is_ng &&
        ((determine_status c sub).is_admin_evaluated ||
         (determine_status c sub).is_admin_rejected ||
         (determine_status c sub).is_general_evaluated ||
         (determine_status c sub).is_general_rejected ||
         (determine_status c sub).is_unclassified)) = false
    ∧ ((determine_status c sub).is_ng || (determine_status c sub).is_admin_evaluated ||
       (determine_status c sub).is_admin_rejected ||
       (determine_status c sub).is_general_evaluated ||
       (determine_status c sub).is_general_rejected ||
       (determine_status c sub).is_unclassified) = true := by
  refine ⟨count_disp _, det_is_ng_eq c sub, det_ng_exclusive c sub, ?_⟩
  rw [det_unclassified_eq]
  exact Bool.or_not_self _

def c4cfg : Config := { userList := ["gen1"], adminUsers := ["adm1"] }

def c4rec : RatingRecord :=
  { ncode := "n1", user_name := "adm1", rating := some "☆", comment := none,
    role := "r", updated_at := 0 }

/-- C4 counterexample: a record whose non-empty rating "☆" lies outside the
enumerated set is not excluded from the computation: with it, the sole admin
record yields is_admin_rejected; excluded, the classifier would have returned
Unclassified. The record does influence its cohort's outcome. -/
theorem c4_unknown_rating_not_excluded :
    (determine_status c4cfg [c4rec]).is_admin_rejected = true
    ∧ (determine_status c4cfg []).is_unclassified = true
    ∧ determine_status c4cfg [c4rec] ≠ determine_status c4cfg [] := by
  decide

lemma det_congr6 (c : Config) (sub1 sub2 : List RatingRecord)
    (h1 : (sub1.filter (fun r => validRating r.rating)).isEmpty
        = (sub2.filter (fun r => validRating r.rating)).isEmpty)
    (h2 : (sub1.filter (fun r => validRating r.rating)).any (fun r => isNG r.rating)
        = (sub2.filter (fun r => validRating r.rating)).any (fun r => isNG r.rating))
    (h3 : ((sub1.filter (fun r => validRating r.rating)).filter
            (fun r => isAdmin c r.user_name)).isEmpty
        = ((sub2.filter (fun r => validRating r.rating)).filter
            (fun r => isAdmin c r.user_name)).isEmpty)
    (h4 : ((sub1.filter (fun r => validRating r.rating)).filter
            (fun r => isAdmin c r.user_name)).any (fun r => isPositive r.rating)
        = ((sub2.filter (fun r => validRating r.rating)).filter
            (fun r => isAdmin c r.user_name)).any (fun r => isPositive r.rating))
    (h5 : ((sub1.filter (fun r => validRating r.rating)).filter
            (fun r => isGeneral c r.user_name)).isEmpty
        = ((sub2.filter (fun r => validRating r.rating)).filter
            (fun r => isGeneral c r.user_name)).isEmpty)
    (h6 : ((sub1.filter (fun r => validRating r.rating)).filter
            (fun r => isGeneral c r.user_name)).any (fun r => isPositive r.rating)
        = ((sub2.filter (fun r => validRating r.rating)).filter
            (fun r => isGeneral c r.user_name)).any (fun r => isPositive r.rating)) :
    determine_status c sub1 = determine_status c sub2 := by
  simp only [determine_status]
  rw [h1, h2, h3, h4, h5, h6]

/-- C4 amended: the classifier is total (it cannot raise) but it does not
exclude a record with a non-empty rating outside the enumerated set; such a
record behaves exactly like an explicit Negative ("×") rating of the same
reviewer. -/
theorem c4_unknown_rating_acts_as_negative (c : Config) (n u : String)
    (cm : Option String) (rl : String) (t : Nat) (sub : List RatingRecord) (s : String)
    (hs1 : s ≠ "") (hs2 : s ≠ "NG") (hs3 : positives.contains s = false) :
    determine_status c
        ({ ncode := n, user_name := u, rating := some s, comment := cm,
           role := rl, updated_at := t } :: sub) =
      determine_status c
        ({ ncode := n, user_name := u, rating := some "×", comment := cm,
           role := rl, updated_at := t } :: sub) := by
  have hv1 : validRating (some s) = true := by
    simp [validRating, hs1]
  have hv2 : validRating (some "×") = true := by decide
  have hn1 : isNG (some s) = false := by
    simp [isNG, hs2]
  have hn2 : isNG (some "×") = false := by decide
  have hp1 : isPositive (some s) = false := hs3
  have hp2 : isPositive (some "×") = false := by decide
  apply det_congr6
  · simp [List.filter_cons, hv1, hv2]
  · simp [List.filter_cons, hv1, hv2, List.any_cons, hn1, hn2]
  · simp only [List.filter_cons, hv1, hv2, if_true]
    cases hA : isAdmin c u with
    | true => simp [hA]
    | false => simp [hA]
  · simp only [List.filter_cons, hv1, hv2, if_true]
    cases hA : isAdmin c u with
    | true => simp [hA, List.any_cons, hp1, hp2]
    | false => simp [hA]
  · simp only [List.filter_cons, hv1, hv2, if_true]
    cases hA : isGeneral c u with
    | true => simp [hA]
    | false => simp [hA]
  · simp only [List.filter_cons, hv1, hv2, if_true]
    cases hA : isGeneral c u with
    | true => simp [hA, List.any_cons, hp1, hp2]
    | false => simp [hA]

/-- C4 witness: the amended equivalence applied at a concrete out-of-set
rating. -/
theorem c4_unknown_rating_acts_as_negative_witness :
    determine_status c4cfg
        ({ ncode := "n1", user_name := "adm1", rating := some "☆", comment := none,
           role := "r", updated_at := 0 } :: [])
      = determine_status c4cfg
        ({ ncode := "n1", user_name := "adm1", rating := some "×", comment := none,
           role := "r", updated_at := 0 } :: []) :=
  c4_unknown_rating_acts_as_negative c4cfg "n1" "adm1" none "r" 0 [] "☆"
    (by decide) (by decide) (by decide)

/-- C10: a row passes the score filter exactly when its global score meets
the lower bound (inclusive) and the upper bound (strict), where a bound set
to 0 disables that test entirely; in particular an upper bound of 0 excludes
nothing. -/
theorem c10_score_filter_bounds (minG maxG : Nat) (df : List EnrichedRow) :
    score_filter_step minG maxG df =
      df.filter (fun r =>
        (decide (minG = 0) || decide ((minG : Int) ≤ r.global_point)) &&
        (decide (maxG = 0) || decide (r.global_point < (maxG : Int)))) := by
  unfold score_filter_step
  rcases Nat.eq_zero_or_pos minG with hm | hm
  · subst hm
    rcases Nat.eq_zero_or_pos maxG with hx | hx
    · subst hx
      simp
    · rw [if_pos hx, if_neg (show ¬ ((0:Nat) < 0) by omega)]
      apply List.filter_congr
      intro a _
      have hd : decide (maxG = 0) = false := by
        simp
        omega
      simp [hd]
  · rcases Nat.eq_zero_or_pos maxG with hx | hx
    · subst hx
      rw [if_neg (show ¬ ((0:Nat) < 0) by omega), if_pos hm]
      apply List.filter_congr
      intro a _
      have hd : decide (minG = 0) = false := by
        simp
        omega
      simp [hd]
    · rw [if_pos hx, if_pos hm, List.filter_filter]
      apply List.filter_congr
      intro a _
      have h1 : decide (minG = 0) = false := by
        simp
        omega
      have h2 : decide (maxG = 0) = false := by
        simp
        omega
      simp [h1, h2, Bool.and_comm]

lemma patchRow_some {c : Config} {all : List RatingRecord} {user : String}
    {patches : List (String × Patch)} {row : EnrichedRow} {p : Patch}
    (h : lookupPatch patches row.ncode = some p) :
    patchRow c all user patches row =
      { row with
        my_rating := p.rating,
        my_comment := p.comment,
        flags := determine_status c
          (upsertRecord (all.filter (fun r => r.ncode == row.ncode))
            (patchRecord row.ncode user p)),
        classification := get_disp_status (determine_status c
          (upsertRecord (all.filter (fun r => r.ncode == row.ncode))
            (patchRecord row.ncode user p))) } := by
  unfold patchRow
  rw [h]

lemma patchRow_idem (c : Config) (all : List RatingRecord) (user : String)
    (patches : List (String × Patch)) (row : EnrichedRow) :
    patchRow c all user patches (patchRow c all user patches row)
      = patchRow c all user patches row := by
  cases h : lookupPatch patches row.ncode with
  | none =>
    simp only [patchRow_eq_self h]
  | some p =>
    have h2 : lookupPatch patches (patchRow c all user patches row).ncode = some p := by
      rw [patchRow_ncode]
      exact h
    rw [patchRow_some h2, patchRow_some h]

lemma apply_patches_eq_map (c : Config) (all : List RatingRecord) (user : String)
    (patches : List (String × Patch)) (df : List EnrichedRow) :
    apply_local_patches c all user patches df = df.map (patchRow c all user patches) := by
  unfold apply_local_patches
  split
  · rename_i hp
    rw [List.isEmpty_eq_true] at hp
    subst hp
    have hmap : df.map (patchRow c all user [] ) = df.map (fun a => a) :=
      List.map_congr_left (fun a _ =>
        patchRow_eq_self (show lookupPatch [] a.ncode = none from rfl))
    rw [hmap, List.map_id']
  · rfl

/-- C8: overlay reconciliation is idempotent — applying the same pending map
twice returns the same table as applying it once — and rows whose submission
has no pending write are left untouched (patching the no-pending rows is the
identity). -/
theorem c8_reconcile_idempotent (c : Config) (all : List RatingRecord) (user : String)
    (patches : List (String × Patch)) (df : List EnrichedRow) :
    apply_local_patches c all user patches (apply_local_patches c all user patches df)
        = apply_local_patches c all user patches df
    ∧ apply_local_patches c all user patches df = df.map (patchRow c all user patches)
    ∧ (df.filter (fun row => (lookupPatch patches row.ncode).isNone)).map
          (patchRow c all user patches)
        = df.filter (fun row => (lookupPatch patches row.ncode).isNone) := by
  refine ⟨?_, apply_patches_eq_map c all user patches df, ?_⟩
  · rw [apply_patches_eq_map, apply_patches_eq_map, List.map_map]
    exact List.map_congr_left (fun a _ => patchRow_idem c all user patches a)
  · have hmap : (df.filter (fun row => (lookupPatch patches row.ncode).isNone)).map
        (patchRow c all user patches)
        = (df.filter (fun row => (lookupPatch patches row.ncode).isNone)).map (fun a => a) := by
      apply List.map_congr_left
      intro a ha
      apply patchRow_eq_self
      exact Option.isNone_iff_eq_none.mp (List.mem_filter.mp ha).2
    rw [hmap, List.map_id']

lemma find_setPatch_aux (n : String) (p : Patch) :
    ∀ patches : List (String × Patch), patches.any (fun q => q.1 == n) = true →
      (patches.map (fun q => if q.1 == n then (n, p) else q)).find? (fun q => q.1 == n)
        = some (n, p) := by
  intro patches
  induction patches with
  | nil =>
    intro h
    simp at h
  | cons q t ih =>
    intro h
    cases hq : (q.1 == n) with
    | true =>
      simp only [List.map_cons, hq, if_true]
      exact List.find?_cons_of_pos _ (by simp)
    | false =>
      simp only [List.map_cons, hq, if_false]
      rw [List.find?_cons_of_neg _ (by simp [hq])]
      apply ih
      simpa [hq] using h

lemma lookup_setPatch (patches : List (String × Patch)) (n : String) (p : Patch) :
    lookupPatch (setPatch patches n p) n = some p := by
  unfold setPatch lookupPatch
  cases h : patches.any (fun q => q.1 == n) with
  | false =>
    simp only [Bool.false_eq_true, if_false, List.find?_append]
    have h1 : patches.find? (fun q => q.1 == n) = none :=
      List.find?_eq_none.mpr (by
        intro x hx
        simpa using (List.any_eq_false.mp h) x hx)
    rw [h1]
    simp
  | true =>
    simp only [if_true]
    rw [find_setPatch_aux n p patches h]
    rfl

/-- C7: the rating write path toggles — submitting a rating equal to the
current one stores an empty rating (both in the pending overlay and in the
durable table), submitting a different one stores that rating; in particular,
from no rating, submitting R twice leaves rating = None. -/
theorem c7_rating_toggle (s : Session) (n u R : String) (cur : Option String)
    (c1 c2 : Option String) (rl : String) (t1 t2 : Nat) :
    (patchRatingOf (on_rating_button_click s n u R cur c1 rl t1) n
        = some (if cur == some R then none else some R)
    ∧ dbRatingOf (on_rating_button_click s n u R cur c1 rl t1).db n u
        = some (if cur == some R then none else some R))
    ∧ (patchRatingOf (on_rating_button_click s n u R none c1 rl t1) n = some (some R)
    ∧ patchRatingOf (on_rating_button_click (on_rating_button_click s n u R none c1 rl t1)
          n u R (some R) c2 rl t2) n = some none
    ∧ dbRatingOf (on_rating_button_click (on_rating_button_click s n u R none c1 rl t1)
          n u R (some R) c2 rl t2).db n u = some none) := by
  have hbase : ∀ (s' : Session) (cur' : Option String) (cm : Option String) (t : Nat),
      patchRatingOf (on_rating_button_click s' n u R cur' cm rl t) n
          = some (if cur' == some R then none else some R)
      ∧ dbRatingOf (on_rating_button_click s' n u R cur' cm rl t).db n u
          = some (if cur' == some R then none else some R) := by
    intro s' cur' cm t
    constructor
    · simp only [on_rating_button_click, save_rating, patchRatingOf]
      rw [lookup_setPatch]
      rfl
    · simp only [on_rating_button_click, save_rating]
      exact dbRatingOf_upsert s'.db
        { ncode := n, user_name := u,
          rating := if cur' == some R then none else some R,
          comment := cm, role := rl, updated_at := t }
  refine ⟨hbase s cur c1 t1, ?_, ?_, ?_⟩
  · have h := (hbase s none c1 t1).1
    simpa using h
  · have h := (hbase (on_rating_button_click s n u R none c1 rl t1) (some R) c2 t2).1
    simpa using h
  · have h := (hbase (on_rating_button_click s n u R none c1 rl t1) (some R) c2 t2).2
    simpa using h

def c6base : RatingRecord :=
  { ncode := "n1", user_name := "u1", rating := none, comment := none,
    role := "r", updated_at := 0 }

def c6s0 : Session := { db := [c6base], cache_user_ratings := [c6base], patches := [] }

def c6s1 : Session := save_rating c6s0 "n1" "u1" (some "〇") none "r" 1

def c6s2 : Session := save_comment_only c6s1 "n1" "u1" (some "hi") "r" 2

/-- C6 (code bug): after the reviewer sets rating 〇 in this session
(save_rating, which never refreshes the memoized load_user_ratings snapshot),
saving a comment re-reads the rating from that stale snapshot and upserts it:
the stored rating and the overlay rating revert to None, losing the rating
just set — the current rating is not preserved. -/
theorem c6_comment_save_reverts_fresh_rating :
    patchRatingOf c6s1 "n1" = some (some "〇")
    ∧ dbRatingOf c6s1.db "n1" "u1" = some (some "〇")
    ∧ patchRatingOf c6s2 "n1" = some none
    ∧ dbRatingOf c6s2.db "n1" "u1" = some none := by
  decide

def cexCfg : Config := { userList := ["u1"], adminUsers := [] }

def cexOutsider : RatingRecord :=
  { ncode := "n1", user_name := "z9", rating := some "〇", comment := none,
    role := "r", updated_at := 0 }

def cexMaster : List MasterRow := [{ ncode := "n1", global_point := 0 }]

def cexPatch : Patch := { rating := none, comment := none, role := "r", updated_at := 1 }

def cexDefaultRow : EnrichedRow :=
  { ncode := "", global_point := 0, my_rating := none, my_comment := none,
    flags := unclassifiedFlags, other_ratings_text := none, classification := "-" }

lemma overlay_flags_eq_rebuild (c : Config) (all : List RatingRecord) (user n : String)
    (p : Patch) :
    determine_status c
        (upsertRecord (all.filter (fun r => r.ncode == n)) (patchRecord n user p))
      = statusRowToFlags
          (calculate_novel_status c (upsertRecord all (patchRecord n user p)) n) := by
  rw [← filter_upsert_patch]
  exact det_eq_batch c (upsertRecord all (patchRecord n user p)) n

/-- C1 counterexample: catalog ["n1"], ratings table holding one valid rating
by reviewer "z9" who is in neither cohort, caller "u1" with a pending write
clearing their rating. The overlay row for "n1" carries
is_unclassified = true, but the rebuild after the write is durably stored
carries is_unclassified = false: the flag fields differ. -/
theorem c1_flag_fields_differ :
    ((apply_local_patches cexCfg [cexOutsider] "u1" [("n1", cexPatch)]
        (get_processed_novel_data cexCfg cexMaster [cexOutsider] [] "u1")).map
          (fun row => row.flags.is_unclassified) = [true])
    ∧ ((get_processed_novel_data cexCfg cexMaster
        (upsertRecord [cexOutsider] (patchRecord "n1" "u1" cexPatch)) [] "u1").map
          (fun row => row.flags.is_unclassified) = [false]) := by
  decide

/-- C1 amended: for a submission with a pending write, the overlay row agrees
with the row a full Aggregate Cache rebuild over the table containing the
durably-stored write would produce, on the classification tag and on the five
cohort flag fields (is_ng, is_admin_evaluated, is_admin_rejected,
is_general_evaluated, is_general_rejected). The is_unclassified flag can
differ (see the counterexample), so it is excluded. -/
theorem c1_overlay_matches_rebuild (c : Config) (master : List MasterRow)
    (all myR myR2 : List RatingRecord) (user : String)
    (patches : List (String × Patch)) (n : String) (p : Patch)
    (row row2 : EnrichedRow)
    (hl : lookupPatch patches n = some p)
    (hrow : row ∈ apply_local_patches c all user patches
        (get_processed_novel_data c master all myR user))
    (hn : row.ncode = n)
    (hrow2 : row2 ∈ get_processed_novel_data c master
        (upsertRecord all (patchRecord n user p)) myR2 user)
    (hn2 : row2.ncode = n) :
    row.classification = row2.classification
    ∧ row.flags.is_ng = row2.flags.is_ng
    ∧ row.flags.is_admin_evaluated = row2.flags.is_admin_evaluated
    ∧ row.flags.is_admin_rejected = row2.flags.is_admin_rejected
    ∧ row.flags.is_general_evaluated = row2.flags.is_general_evaluated
    ∧ row.flags.is_general_rejected = row2.flags.is_general_rejected := by
  obtain ⟨row0, h0, he⟩ := mem_apply_patches hrow
  have hn0 : row0.ncode = n := by
    rw [he, patchRow_ncode] at hn
    exact hn
  have hl0 : lookupPatch patches row0.ncode = some p := by
    rw [hn0]
    exact hl
  obtain ⟨hf, hc, _, _⟩ := patchRow_of_lookup c all user hl0
  rw [← he] at hf hc
  rw [hn0] at hf hc
  rw [overlay_flags_eq_rebuild] at hf hc
  obtain ⟨hf2, hc2⟩ := mem_get_processed hrow2
  rw [hn2] at hf2 hc2
  obtain ⟨e1, e2, e3, e4, e5⟩ :=
    enrich_five_eq c (upsertRecord all (patchRecord n user p)) n
  refine ⟨?_, ?_, ?_, ?_, ?_, ?_⟩
  · rw [hc, hc2]
    exact (disp_congr_five e1 e2 e3 e4 e5).symm
  · rw [hf, hf2]
    exact e1.symm
  · rw [hf, hf2]
    exact e2.symm
  · rw [hf, hf2]
    exact e3.symm
  · rw [hf, hf2]
    exact e4.symm
  · rw [hf, hf2]
    exact e5.symm

/-- C1 witness: the amended agreement evaluated at the counterexample's
concrete session (classification tags agree there). -/
theorem c1_overlay_matches_rebuild_witness :
    ((apply_local_patches cexCfg [cexOutsider] "u1" [("n1", cexPatch)]
        (get_processed_novel_data cexCfg cexMaster [cexOutsider] [] "u1")).headD
          cexDefaultRow).classification
      = ((get_processed_novel_data cexCfg cexMaster
          (upsertRecord [cexOutsider] (patchRecord "n1" "u1" cexPatch)) [] "u1").headD
            cexDefaultRow).classification :=
  (c1_overlay_matches_rebuild cexCfg cexMaster [cexOutsider] [] [] "u1"
    [("n1", cexPatch)] "n1" cexPatch
    ((apply_local_patches cexCfg [cexOutsider] "u1" [("n1", cexPatch)]
        (get_processed_novel_data cexCfg cexMaster [cexOutsider] [] "u1")).headD
          cexDefaultRow)
    ((get_processed_novel_data cexCfg cexMaster
        (upsertRecord [cexOutsider] (patchRecord "n1" "u1" cexPatch)) [] "u1").headD
          cexDefaultRow)
    (by decide) (by decide) (by decide) (by decide) (by decide)).1

/-- C5 counterexample: submission "n1" is rated only by reviewer "z9", who is
in neither cohort; its classification renders "-" (the Unclassified display)
yet its is_unclassified flag is false, so it appears in the CSV export. -/
theorem c5_unclassified_row_exported :
    (df_export cexCfg cexMaster [cexOutsider] [] "u1" []).map
        (fun row => (row.classification, row.flags.is_unclassified))
      = [("-", false)] := by
  decide

/-- C5 amended: the export keeps exactly the reconciled rows whose
is_unclassified flag is false; every reconciled row flagged unclassified
renders "-" and is absent (in particular any submission with only
comment-only records), and hence every row rendering a tag other than "-" is
exported — but a row can render "-" with is_unclassified false (only
non-cohort reviewers rated it) and is then exported anyway. -/
theorem c5_export_iff_not_unclassified (c : Config) (master : List MasterRow)
    (all myR : List RatingRecord) (user : String) (patches : List (String × Patch))
    (row : EnrichedRow) :
    (row ∈ df_export c master all myR user patches ↔
      row ∈ apply_local_patches c all user patches
          (get_processed_novel_data c master all myR user)
        ∧ row.flags.is_unclassified = false)
    ∧ (row ∈ apply_local_patches c all user patches
          (get_processed_novel_data c master all myR user) →
        row.flags.is_unclassified = true → row.classification = "-") := by
  constructor
  · unfold df_export
    rw [List.mem_filter]
    simp [Bool.not_eq_true']
  · intro hmem hunc
    obtain ⟨row0, h0, he⟩ := mem_apply_patches hmem
    cases hl : lookupPatch patches row0.ncode with
    | none =>
      rw [he, patchRow_eq_self hl] at hunc ⊢
      obtain ⟨hf, hc⟩ := mem_get_processed h0
      rw [hf] at hunc
      rw [hc, enrich_unclassified_flags hunc]
      rfl
    | some p =>
      obtain ⟨hf, hc, _, _⟩ := patchRow_of_lookup c all user hl
      rw [he] at hunc ⊢
      rw [hf] at hunc
      rw [hc, det_unclassified_flags hunc]
      rfl

/-- C5 witness: the amended claim applied at a catalog entry with no rating
records at all — it is flagged unclassified and renders "-". -/
theorem c5_export_iff_not_unclassified_witness :
    ((get_processed_novel_data cexCfg cexMaster [] [] "u1").headD
        cexDefaultRow).classification = "-" :=
  (c5_export_iff_not_unclassified cexCfg cexMaster [] [] "u1" []
      ((get_processed_novel_data cexCfg cexMaster [] [] "u1").headD cexDefaultRow)).2
    (by decide) (by decide)

lemma enrich_no_records {c : Config} {all : List RatingRecord} {n : String}
    (h : (all.filter (fun r => r.ncode == n)).isEmpty = true) :
    enrichFlags c all n = unclassifiedFlags := by
  simp only [enrichFlags, calculate_novel_status]
  rw [List.isEmpty_eq_true, List.filter_eq_nil_iff] at h
  have hg : (all.filter (fun r => validRating r.rating)).filter (fun r => r.ncode == n)
      = [] := by
    rw [List.filter_eq_nil_iff]
    intro a ha
    exact h a (List.mem_filter.mp ha).1
  rw [hg]
  rfl

lemma countP_get_processed (c : Config) (all myR : List RatingRecord) (user n : String)
    (huniq : ∀ m : String, (myR.filter (fun r => r.ncode == m)).length ≤ 1) :
    ∀ master : List MasterRow,
      (get_processed_novel_data c master all myR user).countP (fun row => row.ncode == n)
        = master.countP (fun m => m.ncode == n) := by
  intro master
  induction master with
  | nil => rfl
  | cons m t ih =>
    simp only [get_processed_novel_data] at ih ⊢
    rw [List.flatMap_cons, List.countP_append, ih, List.countP_cons, Nat.add_comm]
    congr 1
    cases hm : myR.filter (fun r => r.ncode == m.ncode) with
    | nil =>
      simp [List.countP_cons]
    | cons r rest =>
      have hr : rest = [] := by
        have hlen := huniq m.ncode
        rw [hm] at hlen
        cases rest with
        | nil => rfl
        | cons a b =>
          simp at hlen
      subst hr
      simp [List.countP_cons]

/-- C9: in the enriched table, each catalog submission contributes exactly as
many rows as it has in the catalog (the joins duplicate nothing, given the
store's per-(ncode, reviewer) key uniqueness for the caller's ratings), and a
submission with zero rating records is flagged unclassified and renders "-". -/
theorem c9_each_submission_once_and_default_unclassified (c : Config)
    (master : List MasterRow) (all myR : List RatingRecord) (user n : String)
    (huniq : ∀ m : String, (myR.filter (fun r => r.ncode == m)).length ≤ 1) :
    (get_processed_novel_data c master all myR user).countP (fun row => row.ncode == n)
        = master.countP (fun m => m.ncode == n)
    ∧ ∀ row, row ∈ get_processed_novel_data c master all myR user →
        (all.filter (fun r => r.ncode == row.ncode)).isEmpty = true →
        row.flags = unclassifiedFlags ∧ row.classification = "-" := by
  constructor
  · exact countP_get_processed c all myR user n huniq master
  · intro row hrow hempty
    obtain ⟨hf, hc⟩ := mem_get_processed hrow
    rw [enrich_no_records hempty] at hf hc
    exact ⟨hf, hc.trans rfl⟩

/-- C9 witness: the guarantee applied to the concrete one-row catalog with an
empty ratings store. -/
theorem c9_each_submission_once_witness :
    (get_processed_novel_data cexCfg cexMaster [] [] "u1").countP
        (fun row => row.ncode == "n1") = 1 :=
  ((c9_each_submission_once_and_default_unclassified cexCfg cexMaster [] [] "u1" "n1"
      (fun m => by simp)).1).trans (by decide)
